import Mathlib

/-!
Shallow embedding of the delta-discovery core of the gitdoctor repository
(`src/gitdoctor/delta_finder.py`, `src/gitdoctor/models.py`,
`src/gitdoctor/project_resolver.py`).

The GitLab REST transport is modelled as an oracle (`GitLabClient`): each
call either returns a payload or raises one of the exception classes of
`src/gitdoctor/api_client.py`, modelled by `GitLabExn`.  Python `dict`s of
commit records keyed by id are modelled by `dictEntries` (first-occurrence
key order, last-write-wins values), Python `set`s of commit hashes by
`Finset String`.
-/

namespace GitDoctor

/-- Exception hierarchy of api_client.py: `GitLabNotFound` is a subclass of
`GitLabAPIError`; `other` stands for any exception outside that hierarchy
(caught by the bare `except Exception` in `_compare_in_project`). -/
inductive GitLabExn where
  | notFound (msg : String)
  | apiError (msg : String)
  | other (msg : String)
deriving DecidableEq, Repr

/-- One paginated commit record as returned by `list_commits_from_ref`
(fields per the GitLab API response consumed in delta_finder.py). -/
structure CommitData where
  id : String
  short_id : String
  title : String
  message : String
  author_name : String
  author_email : String
  authored_date : String
  committed_date : String
  committer_name : String
  committer_email : String
  parent_ids : List String
  web_url : String
deriving DecidableEq, Repr

/-- ProjectInfo from project_resolver.py. -/
structure ProjectInfo where
  id : Nat
  name : String
  path_with_namespace : String
  web_url : String
deriving DecidableEq, Repr

/-- DeltaCommit from models.py. -/
structure DeltaCommit where
  commit_sha : String
  short_id : String
  title : String
  message : String
  author_name : String
  author_email : String
  authored_date : String
  committed_date : String
  committer_name : String
  committer_email : String
  web_url : String
  parent_ids : List String
deriving DecidableEq, Repr

/-- DeltaResult from models.py, with its dataclass defaults. -/
structure DeltaResult where
  project_id : Nat
  project_name : String
  project_path : String
  project_web_url : String
  base_ref : String
  target_ref : String
  base_exists : Bool := false
  target_exists : Bool := false
  commits : List DeltaCommit := []
  total_commits : Nat := 0
  base_commit_count : Nat := 0
  target_commit_count : Nat := 0
  total_additions : Nat := 0
  total_deletions : Nat := 0
  files_changed : Nat := 0
  compare_timeout : Bool := false
  compare_same_ref : Bool := false
  error : Option String := none
deriving DecidableEq, Repr

/-- The `has_changes` property of DeltaResult. -/
def DeltaResult.has_changes (r : DeltaResult) : Bool :=
  decide (0 < r.commits.length)

/-- The `is_successful` property of DeltaResult. -/
def DeltaResult.is_successful (r : DeltaResult) : Bool :=
  r.error.isNone && r.base_exists && r.target_exists

/-- Oracle model of the GitLab transport client: each endpoint either
returns its payload or raises a `GitLabExn`.  The payloads of the three
ref-lookup endpoints are discarded by delta_finder.py, so they are `Unit`. -/
structure GitLabClient where
  get_tag : Nat → String → Except GitLabExn Unit
  get_branch : Nat → String → Except GitLabExn Unit
  get_commit : Nat → String → Except GitLabExn Unit
  list_commits_from_ref : Nat → String → Except GitLabExn (List CommitData)

/-- A single-quote character, used in the f-string error messages of
`_compare_in_project`. -/
def sq : String := String.singleton (Char.ofNat 39)

/-- The exception-to-message conversion performed by the three `except`
clauses at the end of `_compare_in_project`. -/
def exnWrap : GitLabExn → String
  | .notFound m => "Resource not found: " ++ m
  | .apiError m => "API error: " ++ m
  | .other m => "Unexpected error: " ++ m

/-- Applying one of the `except` clauses of `_compare_in_project` to the
partial result built so far: only the `error` field is set. -/
def applyCatch (r : DeltaResult) (e : GitLabExn) : DeltaResult :=
  { r with error := some (exnWrap e) }

/-- Third stage of `_ref_exists`: try the ref as a commit SHA.  A success
returns `true`; `GitLabNotFound` and `GitLabAPIError` both return `false`;
any other exception propagates. -/
def ref_exists_commit (client : GitLabClient) (project_id : Nat) (ref : String) :
    Except GitLabExn Bool :=
  match client.get_commit project_id ref with
  | .ok _ => .ok true
  | .error (.notFound _) => .ok false
  | .error (.apiError _) => .ok false
  | .error (.other m) => .error (.other m)

/-- Second stage of `_ref_exists`: try the ref as a branch; `GitLabNotFound`
and `GitLabAPIError` fall through to the commit stage. -/
def ref_exists_branch (client : GitLabClient) (project_id : Nat) (ref : String) :
    Except GitLabExn Bool :=
  match client.get_branch project_id ref with
  | .ok _ => .ok true
  | .error (.notFound _) => ref_exists_commit client project_id ref
  | .error (.apiError _) => ref_exists_commit client project_id ref
  | .error (.other m) => .error (.other m)

/-- `DeltaFinder._ref_exists`: try tag, then branch, then commit SHA.
`GitLabNotFound` and `GitLabAPIError` on the tag or branch stage fall
through to the next stage; an exception outside the GitLab hierarchy is not
caught and propagates. -/
def ref_exists (client : GitLabClient) (project_id : Nat) (ref : String) :
    Except GitLabExn Bool :=
  match client.get_tag project_id ref with
  | .ok _ => .ok true
  | .error (.notFound _) => ref_exists_branch client project_id ref
  | .error (.apiError _) => ref_exists_branch client project_id ref
  | .error (.other m) => .error (.other m)

/-- The DeltaResult constructed at the top of `_compare_in_project`, with
all dataclass defaults. -/
def initResult (project : ProjectInfo) (base_ref target_ref : String) : DeltaResult :=
  { project_id := project.id
    project_name := project.name
    project_path := project.path_with_namespace
    project_web_url := project.web_url
    base_ref := base_ref
    target_ref := target_ref }

/-- Entries of the Python dict comprehension
`\x7bcommit.get("id"): commit for commit in commits\x7d`: one entry per
distinct id, holding the last record written for that id. -/
def dictEntries (commits : List CommitData) : List CommitData :=
  ((commits.map (fun c => c.id)).dedup).filterMap
    (fun sha => (commits.filter (fun c => decide (c.id = sha))).getLast?)

/-- Lexicographic code-point comparison on character lists: the order Python
uses for `str` comparison. -/
def charListLt : List Char → List Char → Bool
  | [], [] => false
  | [], _ :: _ => true
  | _ :: _, [] => false
  | a :: as, b :: bs => if a < b then true else if b < a then false else charListLt as bs

/-- Python `s < t` on strings. -/
def strLt (s t : String) : Bool := charListLt s.data t.data

/-- Python `s <= t` on strings. -/
def strLe (s t : String) : Bool := !(strLt t s)

/-- Python truthiness of an optional date string: `None` and the empty
string are falsy. -/
def optTruthy : Option String → Bool
  | none => false
  | some s => !(s == "")

/-- The two `continue` guards of the date-filter loop in
`_compare_in_project`: a delta commit is skipped when a (truthy) bound is
set, its committed date is non-empty, and the date falls outside the bound. -/
def dateSkip (after_date before_date : Option String) (committed_date : String) : Bool :=
  (optTruthy after_date && !(committed_date == "")
      && strLt committed_date (after_date.getD "")) ||
  (optTruthy before_date && !(committed_date == "")
      && strLt (before_date.getD "") committed_date)

/-- Construction of a DeltaCommit from a commit record, as in
`_compare_in_project` step 6. -/
def toDeltaCommit (c : CommitData) : DeltaCommit :=
  { commit_sha := c.id
    short_id := c.short_id
    title := c.title
    message := c.message
    author_name := c.author_name
    author_email := c.author_email
    authored_date := c.authored_date
    committed_date := c.committed_date
    committer_name := c.committer_name
    committer_email := c.committer_email
    parent_ids := c.parent_ids
    web_url := c.web_url }

/-- Insertion step of the sort by committed date, newest first. -/
def insertByDateDesc (c : DeltaCommit) : List DeltaCommit → List DeltaCommit
  | [] => [c]
  | d :: rest =>
    if strLt d.committed_date c.committed_date then c :: d :: rest
    else d :: insertByDateDesc c rest

/-- `result.commits.sort(key=committed_date, reverse=True)`: sort by
committed date, newest first (tie order is implementation-defined in the
source; the claims below are order-independent). -/
def sortByDateDesc : List DeltaCommit → List DeltaCommit
  | [] => []
  | c :: rest => insertByDateDesc c (sortByDateDesc rest)

/-- `DeltaFinder._compare_in_project`: verify both refs, fetch both commit
lists, compute the set difference of commit ids, date-filter, sort, and
record counts; any raised `GitLabExn` is converted to the `error` field by
the `except` clauses, returning the partial result built so far. -/
def compare_in_project (client : GitLabClient) (project : ProjectInfo)
    (base_ref target_ref : String) (after_date before_date : Option String) :
    DeltaResult :=
  let result0 := initResult project base_ref target_ref
  match ref_exists client project.id base_ref with
  | .error e => applyCatch result0 e
  | .ok base_ex =>
    let result1 := { result0 with base_exists := base_ex }
    if base_ex = false then
      { result1 with
        error := some ("Base ref " ++ sq ++ base_ref ++ sq ++ " not found in this project") }
    else
      match ref_exists client project.id target_ref with
      | .error e => applyCatch result1 e
      | .ok target_ex =>
        let result2 := { result1 with target_exists := target_ex }
        if target_ex = false then
          { result2 with
            error := some ("Target ref " ++ sq ++ target_ref ++ sq ++ " not found in this project") }
        else
          match client.list_commits_from_ref project.id target_ref with
          | .error e => applyCatch result2 e
          | .ok target_commits =>
            match client.list_commits_from_ref project.id base_ref with
            | .error e => applyCatch result2 e
            | .ok base_commits =>
              let target_shas : Finset String := (target_commits.map (fun c => c.id)).toFinset
              let base_shas : Finset String := (base_commits.map (fun c => c.id)).toFinset
              let delta_shas : Finset String := target_shas \ base_shas
              let entries := (dictEntries target_commits).filter
                (fun c => decide (c.id ∉ base_shas))
              let kept := entries.filter
                (fun c => !(dateSkip after_date before_date c.committed_date))
              { result2 with
                base_commit_count := base_shas.card
                target_commit_count := target_shas.card
                compare_same_ref :=
                  decide (delta_shas = ∅) && decide (target_shas = base_shas)
                total_commits := delta_shas.card
                commits := sortByDateDesc (kept.map toDeltaCommit)
                files_changed := 0
                total_additions := 0
                total_deletions := 0 }

/-- `DeltaFinder.find_deltas`: one `_compare_in_project` per project, in
input order (the source appends to `results` inside a `for` loop). -/
def find_deltas (client : GitLabClient) (projects : List ProjectInfo)
    (base_ref target_ref : String) (after_date before_date : Option String) :
    List DeltaResult :=
  projects.map (fun p => compare_in_project client p base_ref target_ref after_date before_date)

/-- DeltaSummary from models.py.  The three outcome counters and the total
are `Int` because the source computes `projects_without_changes` by integer
subtraction. -/
structure DeltaSummary where
  base_ref : String
  target_ref : String
  total_projects : Int
  projects_with_changes : Int
  projects_without_changes : Int
  projects_with_errors : Int
  total_commits : Nat
  total_files_changed : Nat
  total_additions : Nat
  total_deletions : Nat
  unique_authors : List String
  total_base_commits : Nat
  total_target_commits : Nat
  top_projects : List (String × Nat)
deriving DecidableEq, Repr

/-- Insertion step for sorting author names ascending. -/
def insertStrAsc (s : String) : List String → List String
  | [] => [s]
  | t :: rest => if strLe s t then s :: t :: rest else t :: insertStrAsc s rest

/-- Python `sorted` on a list of strings. -/
def sortStrAsc : List String → List String
  | [] => []
  | s :: rest => insertStrAsc s (sortStrAsc rest)

/-- Insertion step for ranking projects by commit count descending. -/
def insertProjDesc (p : String × Nat) : List (String × Nat) → List (String × Nat)
  | [] => [p]
  | q :: rest => if decide (q.2 < p.2) then p :: q :: rest else q :: insertProjDesc p rest

/-- `project_commits.sort(key=count, reverse=True)` in `generate_summary`. -/
def sortProjDesc : List (String × Nat) → List (String × Nat)
  | [] => []
  | p :: rest => insertProjDesc p (sortProjDesc rest)

/-- `DeltaFinder.generate_summary`: the zeroed summary for an empty input,
otherwise counts by outcome class, aggregates totals, unions author names,
and ranks the top 10 projects by commit count. -/
def generate_summary : List DeltaResult → DeltaSummary
  | [] =>
    { base_ref := ""
      target_ref := ""
      total_projects := 0
      projects_with_changes := 0
      projects_without_changes := 0
      projects_with_errors := 0
      total_commits := 0
      total_files_changed := 0
      total_additions := 0
      total_deletions := 0
      unique_authors := []
      total_base_commits := 0
      total_target_commits := 0
      top_projects := [] }
  | d :: rest =>
    let deltas := d :: rest
    let projects_with_changes : Int := (deltas.countP (fun r => r.has_changes) : Nat)
    let projects_with_errors : Int := (deltas.countP (fun r => r.error.isSome) : Nat)
    { base_ref := d.base_ref
      target_ref := d.target_ref
      total_projects := (deltas.length : Nat)
      projects_with_changes := projects_with_changes
      projects_without_changes :=
        (deltas.length : Int) - projects_with_changes - projects_with_errors
      projects_with_errors := projects_with_errors
      total_commits := (deltas.map (fun r => r.commits.length)).sum
      total_files_changed := (deltas.map (fun r => r.files_changed)).sum
      total_additions := (deltas.map (fun r => r.total_additions)).sum
      total_deletions := (deltas.map (fun r => r.total_deletions)).sum
      unique_authors :=
        sortStrAsc (((deltas.flatMap (fun r => r.commits)).map
          (fun c => c.author_name)).dedup)
      total_base_commits := (deltas.map (fun r => r.base_commit_count)).sum
      total_target_commits := (deltas.map (fun r => r.target_commit_count)).sum
      top_projects :=
        (sortProjDesc ((deltas.filter (fun r => r.has_changes)).map
          (fun r => (r.project_path, r.commits.length)))).take 10 }

/-! Concrete transport oracles and fixtures used to instantiate the theorems
on closed inputs. -/

/-- A commit record fixture with the given id and committed date. -/
def mkCommit (i d : String) : CommitData :=
  { id := i
    short_id := i
    title := "title"
    message := "msg"
    author_name := "alice"
    author_email := "a@x"
    authored_date := d
    committed_date := d
    committer_name := "alice"
    committer_email := "a@x"
    parent_ids := []
    web_url := "w" }

/-- Project fixture 1. -/
def proj1 : ProjectInfo := { id := 1, name := "p1", path_with_namespace := "g/p1", web_url := "u1" }

/-- Project fixture 2. -/
def proj2 : ProjectInfo := { id := 2, name := "p2", path_with_namespace := "g/p2", web_url := "u2" }

/-- Project fixture 3. -/
def proj3 : ProjectInfo := { id := 3, name := "p3", path_with_namespace := "g/p3", web_url := "u3" }

/-- A lookup endpoint that always succeeds. -/
def okTag : Nat → String → Except GitLabExn Unit := fun _ _ => .ok ()

/-- A lookup endpoint that always answers 404. -/
def noTag : Nat → String → Except GitLabExn Unit := fun _ _ => .error (.notFound "404")

/-- Target history fixture: commits A, B, C. -/
def happyTarget : List CommitData :=
  [mkCommit "A" "2025-03-01T00:00:00Z", mkCommit "B" "2025-02-01T00:00:00Z",
    mkCommit "C" "2025-01-01T00:00:00Z"]

/-- Base history fixture: commits B, C. -/
def happyBase : List CommitData :=
  [mkCommit "B" "2025-02-01T00:00:00Z", mkCommit "C" "2025-01-01T00:00:00Z"]

/-- Oracle: both refs exist as tags; target history is A, B, C and base
history is B, C. -/
def cxHappy : GitLabClient :=
  { get_tag := okTag
    get_branch := noTag
    get_commit := noTag
    list_commits_from_ref := fun _ r =>
      if r == "t" then .ok happyTarget else .ok happyBase }

/-- Oracle: refs exist everywhere, but the commit-listing transport call
raises an API error for project 2 only. -/
def cxFaulty : GitLabClient :=
  { get_tag := okTag
    get_branch := noTag
    get_commit := noTag
    list_commits_from_ref := fun pid r =>
      if pid == 2 then .error (.apiError "boom")
      else if r == "t" then .ok [mkCommit "A" "2025-03-01T00:00:00Z"]
      else .ok [] }

/-- Oracle: no ref resolves at all (tag, branch and commit lookups all 404). -/
def cxNoBase : GitLabClient :=
  { get_tag := noTag
    get_branch := noTag
    get_commit := noTag
    list_commits_from_ref := fun _ _ => .ok [] }

/-- Same lookups as `cxNoBase` but a commit-listing endpoint that raises:
used to show the listing endpoint is never consulted once a ref is missing. -/
def cxNoBaseAltList : GitLabClient :=
  { get_tag := noTag
    get_branch := noTag
    get_commit := noTag
    list_commits_from_ref := fun _ _ => .error (.other "listing must not be called") }

/-- Oracle: only the base ref resolves (as a tag); the target ref is missing. -/
def cxNoTarget : GitLabClient :=
  { get_tag := fun _ r => if r == "b" then .ok () else .error (.notFound "404")
    get_branch := noTag
    get_commit := noTag
    list_commits_from_ref := fun _ _ => .ok [] }

/-- Same lookups as `cxNoTarget` but a raising commit-listing endpoint. -/
def cxNoTargetAltList : GitLabClient :=
  { get_tag := fun _ r => if r == "b" then .ok () else .error (.notFound "404")
    get_branch := noTag
    get_commit := noTag
    list_commits_from_ref := fun _ _ => .error (.other "listing must not be called") }

/-- A delta commit whose committed date is the empty string. -/
def emptyDateCommit : CommitData := mkCommit "E" ""

/-- Oracle: refs exist; the target history is a single commit with an empty
committed date and the base history is empty. -/
def cxEmptyDate : GitLabClient :=
  { get_tag := okTag
    get_branch := noTag
    get_commit := noTag
    list_commits_from_ref := fun _ r => if r == "t" then .ok [emptyDateCommit] else .ok [] }

/-- Target history fixture: one commit before and one after 2025-01-01. -/
def datesTarget : List CommitData :=
  [mkCommit "OLD" "2024-12-01T00:00:00Z", mkCommit "NEW" "2025-02-01T00:00:00Z"]

/-- Oracle: refs exist; target history has one commit before and one after
2025-01-01, base history is empty. -/
def cxDates : GitLabClient :=
  { get_tag := okTag
    get_branch := noTag
    get_commit := noTag
    list_commits_from_ref := fun _ r =>
      if r == "t" then .ok datesTarget else .ok [] }

/-- Oracle: refs exist and both histories are the identical list B, C. -/
def cxSame : GitLabClient :=
  { get_tag := okTag
    get_branch := noTag
    get_commit := noTag
    list_commits_from_ref := fun _ _ => .ok happyBase }

/-- Oracle: tag lookup 404s, branch lookup raises a non-404 API error, and
the direct commit lookup succeeds. -/
def cxLookupChain : GitLabClient :=
  { get_tag := noTag
    get_branch := fun _ _ => .error (.apiError "500")
    get_commit := okTag
    list_commits_from_ref := fun _ _ => .ok [] }

/-- Which exceptions the `except` clauses of `_ref_exists` catch: the
GitLab hierarchy (`GitLabNotFound`, `GitLabAPIError`) is caught, anything
else propagates. -/
def gitlabCaught : GitLabExn → Bool
  | .notFound _ => true
  | .apiError _ => true
  | .other _ => false

/-- Oracle: every ref lookup raises a non-404 API error; listing succeeds. -/
def cxAllApiErr : GitLabClient :=
  { get_tag := fun _ _ => .error (.apiError "boom")
    get_branch := fun _ _ => .error (.apiError "boom")
    get_commit := fun _ _ => .error (.apiError "boom")
    list_commits_from_ref := fun _ _ => .ok [] }

/-! Helper lemmas about the sort, the dict model and the id projections. -/

lemma mem_insertByDateDesc {x c : DeltaCommit} {l : List DeltaCommit} :
    x ∈ insertByDateDesc c l ↔ x = c ∨ x ∈ l := by
  induction l with
  | nil => simp [insertByDateDesc]
  | cons d rest ih =>
    simp only [insertByDateDesc]
    split
    · simp [List.mem_cons]
    · simp only [List.mem_cons, ih]
      tauto

lemma length_insertByDateDesc (c : DeltaCommit) (l : List DeltaCommit) :
    (insertByDateDesc c l).length = l.length + 1 := by
  induction l with
  | nil => rfl
  | cons d rest ih =>
    simp only [insertByDateDesc]
    split
    · simp
    · simp [ih]

lemma mem_sortByDateDesc {x : DeltaCommit} {l : List DeltaCommit} :
    x ∈ sortByDateDesc l ↔ x ∈ l := by
  induction l with
  | nil => simp [sortByDateDesc]
  | cons c rest ih =>
    simp [sortByDateDesc, mem_insertByDateDesc, ih]

lemma length_sortByDateDesc (l : List DeltaCommit) :
    (sortByDateDesc l).length = l.length := by
  induction l with
  | nil => rfl
  | cons c rest ih =>
    simp [sortByDateDesc, length_insertByDateDesc, ih]

lemma getLast?_filter_id (commits : List CommitData) {sha : String}
    (h : sha ∈ commits.map (fun c => c.id)) :
    ∃ d, (commits.filter (fun c => decide (c.id = sha))).getLast? = some d ∧ d.id = sha := by
  obtain ⟨c, hc, hca⟩ := List.mem_map.mp h
  have hmem : c ∈ commits.filter (fun c => decide (c.id = sha)) :=
    List.mem_filter.mpr ⟨hc, by simp [hca]⟩
  have hne : commits.filter (fun c => decide (c.id = sha)) ≠ [] :=
    List.ne_nil_of_mem hmem
  cases hgl : (commits.filter (fun c => decide (c.id = sha))).getLast? with
  | none => exact absurd (List.getLast?_eq_none_iff.mp hgl) hne
  | some d =>
    obtain ⟨hl, hdl⟩ := List.mem_getLast?_eq_getLast (x := d) hgl
    have hd : d ∈ commits.filter (fun c => decide (c.id = sha)) := by
      rw [hdl]
      exact List.getLast_mem hl
    refine ⟨d, rfl, ?_⟩
    have := (List.mem_filter.mp hd).2
    exact of_decide_eq_true this

lemma filterMap_getLast_map_id (commits : List CommitData) :
    ∀ l : List String, (∀ sha ∈ l, sha ∈ commits.map (fun c => c.id)) →
      ((l.filterMap (fun sha =>
          (commits.filter (fun c => decide (c.id = sha))).getLast?)).map (fun c => c.id)) = l := by
  intro l
  induction l with
  | nil => intro _; rfl
  | cons a l ih =>
    intro h
    obtain ⟨d, hd, hda⟩ := getLast?_filter_id commits (h a (List.mem_cons_self a l))
    simp only [List.filterMap_cons, hd, List.map_cons, hda]
    rw [ih (fun s hs => h s (List.mem_cons_of_mem a hs))]

lemma dictEntries_map_id (commits : List CommitData) :
    (dictEntries commits).map (fun c => c.id) = (commits.map (fun c => c.id)).dedup := by
  unfold dictEntries
  exact filterMap_getLast_map_id commits _ (fun sha hs => List.mem_dedup.mp hs)

lemma map_id_filter (p : String → Bool) (l : List CommitData) :
    (l.filter (fun c => p c.id)).map (fun c => c.id) = (l.map (fun c => c.id)).filter p := by
  induction l with
  | nil => rfl
  | cons c rest ih =>
    simp only [List.filter_cons, List.map_cons]
    by_cases h : p c.id
    · simp [h, ih]
    · simp [h, ih]

lemma entries_map_id (tc : List CommitData) (bS : Finset String) :
    ((dictEntries tc).filter (fun c => decide (c.id ∉ bS))).map (fun c => c.id)
      = ((tc.map (fun c => c.id)).dedup).filter (fun s => decide (s ∉ bS)) := by
  rw [map_id_filter (fun s => decide (s ∉ bS)), dictEntries_map_id]

lemma entries_length (tc : List CommitData) (bS : Finset String) :
    ((dictEntries tc).filter (fun c => decide (c.id ∉ bS))).length
      = ((tc.map (fun c => c.id)).toFinset \ bS).card := by
  have h1 : ((dictEntries tc).filter (fun c => decide (c.id ∉ bS))).length
      = (((tc.map (fun c => c.id)).dedup).filter (fun s => decide (s ∉ bS))).length := by
    rw [← entries_map_id tc bS]
    exact (List.length_map _ _).symm
  rw [h1]
  have hnd : (((tc.map (fun c => c.id)).dedup).filter (fun s => decide (s ∉ bS))).Nodup :=
    (List.nodup_dedup _).filter _
  rw [← List.toFinset_card_of_nodup hnd]
  congr 1
  ext x
  simp [List.mem_filter, List.mem_dedup, Finset.mem_sdiff]

lemma mem_entries_id (tc : List CommitData) (bS : Finset String) (x : String) :
    (x ∈ ((dictEntries tc).filter (fun c => decide (c.id ∉ bS))).map (fun c => c.id))
      ↔ (x ∈ (tc.map (fun c => c.id)).toFinset \ bS) := by
  rw [entries_map_id]
  simp [List.mem_filter, List.mem_dedup, Finset.mem_sdiff]

lemma compare_in_project_success (client : GitLabClient) (p : ProjectInfo)
    (b t : String) (a bd : Option String) (tc bc : List CommitData)
    (hb : ref_exists client p.id b = .ok true)
    (ht : ref_exists client p.id t = .ok true)
    (hlt : client.list_commits_from_ref p.id t = .ok tc)
    (hlb : client.list_commits_from_ref p.id b = .ok bc) :
    compare_in_project client p b t a bd =
      { initResult p b t with
        base_exists := true
        target_exists := true
        base_commit_count := ((bc.map (fun c => c.id)).toFinset).card
        target_commit_count := ((tc.map (fun c => c.id)).toFinset).card
        compare_same_ref :=
          decide ((tc.map (fun c => c.id)).toFinset \ (bc.map (fun c => c.id)).toFinset = ∅)
            && decide ((tc.map (fun c => c.id)).toFinset = (bc.map (fun c => c.id)).toFinset)
        total_commits :=
          ((tc.map (fun c => c.id)).toFinset \ (bc.map (fun c => c.id)).toFinset).card
        commits := sortByDateDesc ((((dictEntries tc).filter
            (fun c => decide (c.id ∉ (bc.map (fun c => c.id)).toFinset))).filter
            (fun c => !(dateSkip a bd c.committed_date))).map toDeltaCommit) } := by
  unfold compare_in_project
  rw [hb, ht, hlt, hlb]
  rfl

lemma commits_of_success (client : GitLabClient) (p : ProjectInfo)
    (b t : String) (a bd : Option String) (tc bc : List CommitData)
    (hb : ref_exists client p.id b = .ok true)
    (ht : ref_exists client p.id t = .ok true)
    (hlt : client.list_commits_from_ref p.id t = .ok tc)
    (hlb : client.list_commits_from_ref p.id b = .ok bc) :
    (compare_in_project client p b t a bd).commits
      = sortByDateDesc ((((dictEntries tc).filter
          (fun c => decide (c.id ∉ (bc.map (fun c => c.id)).toFinset))).filter
          (fun c => !(dateSkip a bd c.committed_date))).map toDeltaCommit) := by
  rw [compare_in_project_success client p b t a bd tc bc hb ht hlt hlb]

lemma total_commits_of_success (client : GitLabClient) (p : ProjectInfo)
    (b t : String) (a bd : Option String) (tc bc : List CommitData)
    (hb : ref_exists client p.id b = .ok true)
    (ht : ref_exists client p.id t = .ok true)
    (hlt : client.list_commits_from_ref p.id t = .ok tc)
    (hlb : client.list_commits_from_ref p.id b = .ok bc) :
    (compare_in_project client p b t a bd).total_commits
      = ((tc.map (fun c => c.id)).toFinset \ (bc.map (fun c => c.id)).toFinset).card := by
  rw [compare_in_project_success client p b t a bd tc bc hb ht hlt hlb]

lemma compare_same_ref_of_success (client : GitLabClient) (p : ProjectInfo)
    (b t : String) (a bd : Option String) (tc bc : List CommitData)
    (hb : ref_exists client p.id b = .ok true)
    (ht : ref_exists client p.id t = .ok true)
    (hlt : client.list_commits_from_ref p.id t = .ok tc)
    (hlb : client.list_commits_from_ref p.id b = .ok bc) :
    (compare_in_project client p b t a bd).compare_same_ref
      = (decide ((tc.map (fun c => c.id)).toFinset \ (bc.map (fun c => c.id)).toFinset = ∅)
          && decide ((tc.map (fun c => c.id)).toFinset = (bc.map (fun c => c.id)).toFinset)) := by
  rw [compare_in_project_success client p b t a bd tc bc hb ht hlt hlb]

lemma sorted_map_sha_mem (entries : List CommitData) (x : String) :
    (x ∈ (sortByDateDesc (entries.map toDeltaCommit)).map (fun dc => dc.commit_sha))
      ↔ x ∈ entries.map (fun c => c.id) := by
  simp only [List.mem_map, mem_sortByDateDesc]
  constructor
  · rintro ⟨dc, ⟨c, hc, rfl⟩, rfl⟩
    exact ⟨c, hc, rfl⟩
  · rintro ⟨c, hc, rfl⟩
    exact ⟨toDeltaCommit c, ⟨c, hc, rfl⟩, rfl⟩

/-- C1: for a project where both refs resolve and no date filters are
given, the set of commit_sha values in DeltaResult.commits is exactly the
set of ids listed from the target ref minus the set of ids listed from the
base ref, and total_commits (the raw delta count) is the cardinality of
that set difference — regardless of parent ids, ordering or any other
commit metadata. -/
theorem delta_is_set_difference (client : GitLabClient) (p : ProjectInfo)
    (b t : String) (tc bc : List CommitData)
    (hb : ref_exists client p.id b = .ok true)
    (ht : ref_exists client p.id t = .ok true)
    (hlt : client.list_commits_from_ref p.id t = .ok tc)
    (hlb : client.list_commits_from_ref p.id b = .ok bc) :
    (((compare_in_project client p b t none none).commits.map
        (fun dc => dc.commit_sha)).toFinset
      = (tc.map (fun c => c.id)).toFinset \ (bc.map (fun c => c.id)).toFinset)
    ∧ (compare_in_project client p b t none none).total_commits
      = ((tc.map (fun c => c.id)).toFinset \ (bc.map (fun c => c.id)).toFinset).card := by
  refine ⟨?_, total_commits_of_success client p b t none none tc bc hb ht hlt hlb⟩
  rw [commits_of_success client p b t none none tc bc hb ht hlt hlb]
  have hnofilter : (fun c : CommitData => !(dateSkip none none c.committed_date))
      = (fun _ : CommitData => true) := by
    funext c
    rfl
  rw [hnofilter, List.filter_true]
  ext x
  rw [List.mem_toFinset, sorted_map_sha_mem]
  exact mem_entries_id tc _ x

/-- Witness for C1 on the concrete oracle `cxHappy`, where the target lists
A, B, C and the base lists B, C. -/
theorem delta_is_set_difference_witness :
    ref_exists cxHappy proj1.id "b" = .ok true ∧
    ((((compare_in_project cxHappy proj1 "b" "t" none none).commits.map
        (fun dc => dc.commit_sha)).toFinset
      = (happyTarget.map (fun c => c.id)).toFinset \ (happyBase.map (fun c => c.id)).toFinset)
    ∧ (compare_in_project cxHappy proj1 "b" "t" none none).total_commits
      = ((happyTarget.map (fun c => c.id)).toFinset
          \ (happyBase.map (fun c => c.id)).toFinset).card) :=
  ⟨rfl, delta_is_set_difference cxHappy proj1 "b" "t" happyTarget happyBase rfl rfl rfl rfl⟩

/-- C2: find_deltas returns one result per project in input order; the
result for each project equals the standalone computation for that project
(so every other project is computed exactly as if a failing project were
absent); and a transport/API exception raised while listing commits for a
project is recorded in that project's error field. -/
theorem find_deltas_isolation (client : GitLabClient) (ps l1 l2 : List ProjectInfo)
    (p : ProjectInfo) (b t : String) (a bd : Option String) :
    (find_deltas client ps b t a bd).length = ps.length ∧
    find_deltas client (l1 ++ p :: l2) b t a bd
      = find_deltas client l1 b t a bd
        ++ compare_in_project client p b t a bd :: find_deltas client l2 b t a bd ∧
    (∀ e, ref_exists client p.id b = .ok true → ref_exists client p.id t = .ok true →
      client.list_commits_from_ref p.id t = .error e →
      (compare_in_project client p b t a bd).error = some (exnWrap e)) ∧
    (∀ e tc, ref_exists client p.id b = .ok true → ref_exists client p.id t = .ok true →
      client.list_commits_from_ref p.id t = .ok tc →
      client.list_commits_from_ref p.id b = .error e →
      (compare_in_project client p b t a bd).error = some (exnWrap e)) := by
  refine ⟨by simp [find_deltas], by simp [find_deltas], ?_, ?_⟩
  · intro e hb ht hlt
    unfold compare_in_project
    rw [hb, ht, hlt]
    rfl
  · intro e tc hb ht hlt hlb
    unfold compare_in_project
    rw [hb, ht, hlt, hlb]
    rfl

/-- Witness for C2 on the concrete oracle `cxFaulty`, whose commit-listing
call raises an API error for project 2 only. -/
theorem find_deltas_isolation_witness :
    (find_deltas cxFaulty [proj1, proj2, proj3] "b" "t" none none).length = 3 ∧
    find_deltas cxFaulty [proj1, proj2, proj3] "b" "t" none none
      = find_deltas cxFaulty [proj1] "b" "t" none none
        ++ compare_in_project cxFaulty proj2 "b" "t" none none
          :: find_deltas cxFaulty [proj3] "b" "t" none none ∧
    (compare_in_project cxFaulty proj2 "b" "t" none none).error = some "API error: boom" := by
  have h := find_deltas_isolation cxFaulty [proj1, proj2, proj3] [proj1] [proj3] proj2
    "b" "t" none none
  exact ⟨h.1, h.2.1, h.2.2.1 (.apiError "boom") rfl rfl rfl⟩

lemma message_ne_empty (pre mid suf : String) (h : 0 < pre.length) :
    pre ++ sq ++ mid ++ sq ++ suf ≠ "" := by
  intro he
  have h2 := congrArg String.length he
  simp only [String.length_append] at h2
  have h0 : String.length "" = 0 := rfl
  rw [h0] at h2
  omega

/-- C3: when the base ref does not resolve, the result has an empty commit
list and a non-empty error, and the commit-listing endpoint is never
consulted (any client differing only in its listing endpoint yields the
identical result); the same short-circuit holds when the target ref is
missing after the base ref resolved. -/
theorem missing_ref_short_circuits (client client2 : GitLabClient)
    (p : ProjectInfo) (b t : String) (a bd : Option String)
    (htag : client2.get_tag = client.get_tag)
    (hbr : client2.get_branch = client.get_branch)
    (hcm : client2.get_commit = client.get_commit) :
    (ref_exists client p.id b = .ok false →
      (compare_in_project client p b t a bd).commits = [] ∧
      (∃ m, (compare_in_project client p b t a bd).error = some m ∧ m ≠ "") ∧
      compare_in_project client2 p b t a bd = compare_in_project client p b t a bd) ∧
    (ref_exists client p.id b = .ok true → ref_exists client p.id t = .ok false →
      (compare_in_project client p b t a bd).commits = [] ∧
      (∃ m, (compare_in_project client p b t a bd).error = some m ∧ m ≠ "") ∧
      compare_in_project client2 p b t a bd = compare_in_project client p b t a bd) := by
  have hre : ∀ pid r, ref_exists client2 pid r = ref_exists client pid r := by
    intro pid r
    unfold ref_exists ref_exists_branch ref_exists_commit
    rw [htag, hbr, hcm]
  constructor
  · intro hb
    have hcmp : compare_in_project client p b t a bd =
        { initResult p b t with
          error := some ("Base ref " ++ sq ++ b ++ sq ++ " not found in this project") } := by
      unfold compare_in_project
      rw [hb]
      rfl
    refine ⟨by rw [hcmp]; rfl, ⟨_, by rw [hcmp], message_ne_empty _ b _ (by decide)⟩, ?_⟩
    unfold compare_in_project
    rw [hre, hb]
    rfl
  · intro hb ht
    have hcmp : compare_in_project client p b t a bd =
        { initResult p b t with
          base_exists := true
          error := some ("Target ref " ++ sq ++ t ++ sq ++ " not found in this project") } := by
      unfold compare_in_project
      rw [hb, ht]
      rfl
    refine ⟨by rw [hcmp]; rfl, ⟨_, by rw [hcmp], message_ne_empty _ t _ (by decide)⟩, ?_⟩
    unfold compare_in_project
    rw [hre, hre, hb, ht]
    rfl

/-- Witness for C3 on concrete oracles with a missing base ref (`cxNoBase`)
and a missing target ref (`cxNoTarget`), each paired with a variant client
whose commit-listing endpoint raises. -/
theorem missing_ref_short_circuits_witness :
    (compare_in_project cxNoBase proj1 "b" "t" none none).commits = [] ∧
    (∃ m, (compare_in_project cxNoBase proj1 "b" "t" none none).error = some m ∧ m ≠ "") ∧
    compare_in_project cxNoBaseAltList proj1 "b" "t" none none
      = compare_in_project cxNoBase proj1 "b" "t" none none ∧
    (compare_in_project cxNoTarget proj1 "b" "t" none none).commits = [] ∧
    compare_in_project cxNoTargetAltList proj1 "b" "t" none none
      = compare_in_project cxNoTarget proj1 "b" "t" none none := by
  have h1 := (missing_ref_short_circuits cxNoBase cxNoBaseAltList proj1 "b" "t" none none
    rfl rfl rfl).1 rfl
  have h2 := (missing_ref_short_circuits cxNoTarget cxNoTargetAltList proj1 "b" "t" none none
    rfl rfl rfl).2 rfl rfl
  exact ⟨h1.1, h1.2.1, h1.2.2, h2.1, h2.2.2⟩

/-- C4 counterexample: with afterDate set, the produced DeltaResult
contains a commit whose committed_date (the empty string) does not satisfy
afterDate <= committed_date, so the claim as stated fails on the code. -/
theorem date_filter_cex :
    (compare_in_project cxEmptyDate proj1 "b" "t" (some "2025-01-01T00:00:00Z") none).commits
      = [toDeltaCommit emptyDateCommit] ∧
    strLe "2025-01-01T00:00:00Z" (toDeltaCommit emptyDateCommit).committed_date = false := by
  exact ⟨by decide, by decide⟩

/-- C4 (amended): len(commits) <= total_commits always holds; and every
commit in the final list whose committed_date is non-empty satisfies the
afterDate/beforeDate bounds when those are supplied (truthy); records
failing a bound are dropped from commits but still counted in
total_commits, which stays the full cardinality of the set difference. -/
theorem date_filter_amended (client : GitLabClient) (p : ProjectInfo) (b t : String)
    (a bd : Option String) :
    (compare_in_project client p b t a bd).commits.length
      ≤ (compare_in_project client p b t a bd).total_commits ∧
    (∀ tc bc, ref_exists client p.id b = .ok true → ref_exists client p.id t = .ok true →
      client.list_commits_from_ref p.id t = .ok tc →
      client.list_commits_from_ref p.id b = .ok bc →
      (compare_in_project client p b t a bd).total_commits
        = ((tc.map (fun c => c.id)).toFinset \ (bc.map (fun c => c.id)).toFinset).card ∧
      ∀ dc ∈ (compare_in_project client p b t a bd).commits,
        dc.committed_date ≠ "" →
        (optTruthy a = true → strLe (a.getD "") dc.committed_date = true) ∧
        (optTruthy bd = true → strLe dc.committed_date (bd.getD "") = true)) := by
  constructor
  · unfold compare_in_project
    cases hb : ref_exists client p.id b with
    | error e => simp [applyCatch, initResult]
    | ok be =>
      cases be with
      | false => simp [initResult]
      | true =>
        cases ht : ref_exists client p.id t with
        | error e => simp [applyCatch, initResult]
        | ok te =>
          cases te with
          | false => simp [initResult]
          | true =>
            cases hlt : client.list_commits_from_ref p.id t with
            | error e => simp [applyCatch, initResult]
            | ok tc =>
              cases hlb : client.list_commits_from_ref p.id b with
              | error e => simp [applyCatch, initResult]
              | ok bc =>
                simp only [if_neg (show ¬(true = false) from by decide)]
                simp only [length_sortByDateDesc, List.length_map]
                calc (List.filter (fun c => !dateSkip a bd c.committed_date)
                        (List.filter (fun c => decide (c.id ∉
                          (List.map (fun c => c.id) bc).toFinset)) (dictEntries tc))).length
                    ≤ (List.filter (fun c => decide (c.id ∉
                        (List.map (fun c => c.id) bc).toFinset)) (dictEntries tc)).length :=
                      List.length_filter_le _ _
                  _ = ((tc.map (fun c => c.id)).toFinset
                        \ (bc.map (fun c => c.id)).toFinset).card :=
                      entries_length tc _
  · intro tc bc hb ht hlt hlb
    refine ⟨total_commits_of_success client p b t a bd tc bc hb ht hlt hlb, ?_⟩
    intro dc hdc hne
    rw [commits_of_success client p b t a bd tc bc hb ht hlt hlb,
      mem_sortByDateDesc] at hdc
    obtain ⟨c, hck, rfl⟩ := List.mem_map.mp hdc
    have hskip : dateSkip a bd c.committed_date = false := by
      have h2 := (List.mem_filter.mp hck).2
      simpa using h2
    have hcd : (toDeltaCommit c).committed_date = c.committed_date := rfl
    rw [hcd] at hne ⊢
    unfold dateSkip at hskip
    rw [Bool.or_eq_false_iff] at hskip
    have hbeq : (c.committed_date == "") = false := by
      simpa using hne
    constructor
    · intro hta
      have h3 := hskip.1
      rw [hta, hbeq] at h3
      simp at h3
      unfold strLe
      rw [h3]
      rfl
    · intro htb
      have h3 := hskip.2
      rw [htb, hbeq] at h3
      simp at h3
      unfold strLe
      rw [h3]
      rfl

/-- Witness for the amended C4 on the concrete oracle `cxDates`: the OLD
commit is dropped by the afterDate bound but still counted, and the
surviving NEW commit satisfies the bound. -/
theorem date_filter_amended_witness :
    (compare_in_project cxDates proj1 "b" "t" (some "2025-01-01T00:00:00Z") none).commits.length
      ≤ (compare_in_project cxDates proj1 "b" "t" (some "2025-01-01T00:00:00Z") none).total_commits ∧
    strLe "2025-01-01T00:00:00Z"
      (toDeltaCommit (mkCommit "NEW" "2025-02-01T00:00:00Z")).committed_date = true := by
  have h := date_filter_amended cxDates proj1 "b" "t" (some "2025-01-01T00:00:00Z") none
  refine ⟨h.1, ?_⟩
  have h2 := (h.2 datesTarget [] rfl rfl rfl rfl).2
    (toDeltaCommit (mkCommit "NEW" "2025-02-01T00:00:00Z")) (by decide) (by decide)
  exact h2.1 rfl

/-- C5: when both refs resolve and collection succeeds, compare_same_ref
is set exactly when the set of target ids equals the set of base ids, and
in that case the commit list is empty; an empty delta with strictly fewer
target commits does not set it. -/
theorem compare_same_ref_characterization (client : GitLabClient) (p : ProjectInfo)
    (b t : String) (a bd : Option String) (tc bc : List CommitData)
    (hb : ref_exists client p.id b = .ok true)
    (ht : ref_exists client p.id t = .ok true)
    (hlt : client.list_commits_from_ref p.id t = .ok tc)
    (hlb : client.list_commits_from_ref p.id b = .ok bc) :
    ((tc.map (fun c => c.id)).toFinset = (bc.map (fun c => c.id)).toFinset →
      (compare_in_project client p b t a bd).compare_same_ref = true ∧
      (compare_in_project client p b t a bd).commits = []) ∧
    ((compare_in_project client p b t a bd).compare_same_ref = true →
      (tc.map (fun c => c.id)).toFinset = (bc.map (fun c => c.id)).toFinset) := by
  have hsr := compare_same_ref_of_success client p b t a bd tc bc hb ht hlt hlb
  have hcm := commits_of_success client p b t a bd tc bc hb ht hlt hlb
  constructor
  · intro heq
    constructor
    · rw [hsr, heq]
      simp
    · rw [hcm]
      have hent : (dictEntries tc).filter
          (fun c => decide (c.id ∉ (bc.map (fun c => c.id)).toFinset)) = [] := by
        rw [List.filter_eq_nil_iff]
        intro c hc
        have hid : c.id ∈ tc.map (fun x => x.id) := by
          have h1 : c.id ∈ (dictEntries tc).map (fun x => x.id) :=
            List.mem_map.mpr ⟨c, hc, rfl⟩
          rw [dictEntries_map_id] at h1
          exact List.mem_dedup.mp h1
        have hin : c.id ∈ (bc.map (fun x => x.id)).toFinset := by
          rw [← heq]
          exact List.mem_toFinset.mpr hid
        intro hpa
        exact (of_decide_eq_true hpa) hin
      rw [hent]
      rfl
  · intro h
    rw [hsr] at h
    exact of_decide_eq_true ((Bool.and_eq_true _ _).mp h).2

/-- Witness for C5 on the concrete oracle `cxSame`, whose target and base
histories are the identical list B, C. -/
theorem compare_same_ref_characterization_witness :
    (happyBase.map (fun c => c.id)).toFinset = (happyBase.map (fun c => c.id)).toFinset ∧
    (compare_in_project cxSame proj1 "b" "t" none none).compare_same_ref = true ∧
    (compare_in_project cxSame proj1 "b" "t" none none).commits = [] :=
  ⟨rfl, (compare_same_ref_characterization cxSame proj1 "b" "t" none none
    happyBase happyBase rfl rfl rfl rfl).1 rfl⟩

/-- C6: refExists tries tag, then branch, then commit, in that order, and
answers true exactly on the first lookup that succeeds; a not-found answer
moves on to the next kind; a caught non-404 API error is inconclusive (the
next kind is still attempted) and never counts as exists, so with no
affirmative match the answer is false. -/
theorem ref_exists_priority (client : GitLabClient) (pid : Nat) (r : String) :
    (client.get_tag pid r = .ok () → ref_exists client pid r = .ok true) ∧
    (∀ e1, gitlabCaught e1 = true → client.get_tag pid r = .error e1 →
      client.get_branch pid r = .ok () → ref_exists client pid r = .ok true) ∧
    (∀ e1 e2, gitlabCaught e1 = true → gitlabCaught e2 = true →
      client.get_tag pid r = .error e1 → client.get_branch pid r = .error e2 →
      client.get_commit pid r = .ok () → ref_exists client pid r = .ok true) ∧
    (∀ e1 e2 e3, gitlabCaught e1 = true → gitlabCaught e2 = true → gitlabCaught e3 = true →
      client.get_tag pid r = .error e1 → client.get_branch pid r = .error e2 →
      client.get_commit pid r = .error e3 → ref_exists client pid r = .ok false) := by
  refine ⟨?_, ?_, ?_, ?_⟩
  · intro h1
    unfold ref_exists
    rw [h1]
  · intro e1 hc1 h1 h2
    unfold ref_exists ref_exists_branch
    rw [h1, h2]
    cases e1 with
    | notFound m => rfl
    | apiError m => rfl
    | other m => exact absurd hc1 (by simp [gitlabCaught])
  · intro e1 e2 hc1 hc2 h1 h2 h3
    unfold ref_exists ref_exists_branch ref_exists_commit
    rw [h1, h2, h3]
    cases e1 with
    | notFound m =>
      cases e2 with
      | notFound m2 => rfl
      | apiError m2 => rfl
      | other m2 => exact absurd hc2 (by simp [gitlabCaught])
    | apiError m =>
      cases e2 with
      | notFound m2 => rfl
      | apiError m2 => rfl
      | other m2 => exact absurd hc2 (by simp [gitlabCaught])
    | other m => exact absurd hc1 (by simp [gitlabCaught])
  · intro e1 e2 e3 hc1 hc2 hc3 h1 h2 h3
    unfold ref_exists ref_exists_branch ref_exists_commit
    rw [h1, h2, h3]
    cases e1 with
    | other m => exact absurd hc1 (by simp [gitlabCaught])
    | notFound m =>
      cases e2 with
      | other m2 => exact absurd hc2 (by simp [gitlabCaught])
      | notFound m2 =>
        cases e3 with
        | other m3 => exact absurd hc3 (by simp [gitlabCaught])
        | notFound m3 => rfl
        | apiError m3 => rfl
      | apiError m2 =>
        cases e3 with
        | other m3 => exact absurd hc3 (by simp [gitlabCaught])
        | notFound m3 => rfl
        | apiError m3 => rfl
    | apiError m =>
      cases e2 with
      | other m2 => exact absurd hc2 (by simp [gitlabCaught])
      | notFound m2 =>
        cases e3 with
        | other m3 => exact absurd hc3 (by simp [gitlabCaught])
        | notFound m3 => rfl
        | apiError m3 => rfl
      | apiError m2 =>
        cases e3 with
        | other m3 => exact absurd hc3 (by simp [gitlabCaught])
        | notFound m3 => rfl
        | apiError m3 => rfl

/-- Witness for C6 on the concrete oracle `cxLookupChain`: the tag lookup
404s, the branch lookup raises a non-404 error, and the commit lookup
succeeds, so refExists answers true. -/
theorem ref_exists_priority_witness :
    gitlabCaught (.notFound "404") = true ∧
    gitlabCaught (.apiError "500") = true ∧
    cxLookupChain.get_tag 1 "x" = .error (.notFound "404") ∧
    cxLookupChain.get_branch 1 "x" = .error (.apiError "500") ∧
    cxLookupChain.get_commit 1 "x" = .ok () ∧
    ref_exists cxLookupChain 1 "x" = .ok true :=
  ⟨rfl, rfl, rfl, rfl, rfl,
    (ref_exists_priority cxLookupChain 1 "x").2.2.1 (.notFound "404") (.apiError "500")
      rfl rfl rfl rfl rfl⟩

/-- C7 counterexample: when every lookup of the base ref raises a non-404
GitLabAPIError, the Reference Resolver swallows the error (answering
false), and the DeltaResult reports a ref-not-found message instead of the
Delta Engine conversion of the raised API error — so not every component
error bubbles to the Delta Engine. -/
theorem resolver_error_swallowed_cex :
    cxAllApiErr.get_tag proj1.id "b" = .error (.apiError "boom") ∧
    (compare_in_project cxAllApiErr proj1 "b" "t" none none).error
      = some ("Base ref " ++ sq ++ "b" ++ sq ++ " not found in this project") ∧
    (compare_in_project cxAllApiErr proj1 "b" "t" none none).error
      ≠ some (exnWrap (.apiError "boom")) :=
  ⟨rfl, by decide, by decide⟩

/-- C7 (amended): errors raised inside the Commit Collector propagate to
the Delta Engine, which is the point converting them into the error field;
the Reference Resolver, however, catches GitLab transport errors itself,
treats the lookup as inconclusive, and never propagates them — a ref whose
three lookups all raise API errors is simply reported as not existing. -/
theorem collector_errors_bubble (client : GitLabClient) (p : ProjectInfo)
    (b t : String) (a bd : Option String) :
    (∀ e, ref_exists client p.id b = .ok true → ref_exists client p.id t = .ok true →
      client.list_commits_from_ref p.id t = .error e →
      (compare_in_project client p b t a bd).error = some (exnWrap e)) ∧
    (∀ e tc, ref_exists client p.id b = .ok true → ref_exists client p.id t = .ok true →
      client.list_commits_from_ref p.id t = .ok tc →
      client.list_commits_from_ref p.id b = .error e →
      (compare_in_project client p b t a bd).error = some (exnWrap e)) ∧
    (∀ pid r m1 m2 m3,
      client.get_tag pid r = .error (.apiError m1) →
      client.get_branch pid r = .error (.apiError m2) →
      client.get_commit pid r = .error (.apiError m3) →
      ref_exists client pid r = .ok false) := by
  refine ⟨?_, ?_, ?_⟩
  · intro e hb ht hlt
    unfold compare_in_project
    rw [hb, ht, hlt]
    rfl
  · intro e tc hb ht hlt hlb
    unfold compare_in_project
    rw [hb, ht, hlt, hlb]
    rfl
  · intro pid r m1 m2 m3 h1 h2 h3
    unfold ref_exists ref_exists_branch ref_exists_commit
    rw [h1, h2, h3]

/-- Witness for the amended C7: the collector failure of `cxFaulty` at
project 2 is wrapped into the error field, while `cxAllApiErr`, whose
resolver lookups all raise, yields a plain false from refExists. -/
theorem collector_errors_bubble_witness :
    (compare_in_project cxFaulty proj2 "b" "t" none none).error
      = some (exnWrap (.apiError "boom")) ∧
    ref_exists cxAllApiErr 1 "b" = .ok false :=
  ⟨(collector_errors_bubble cxFaulty proj2 "b" "t" none none).1 (.apiError "boom") rfl rfl rfl,
    (collector_errors_bubble cxAllApiErr proj1 "b" "t" none none).2.2 1 "b"
      "boom" "boom" "boom" rfl rfl rfl⟩

/-- C8 counterexample: calling find_deltas with an empty project list does
not raise — it returns the empty result list, and generate_summary of that
result is the well-defined zeroed summary, so the empty list is not
surfaced as a fatal error by this layer. -/
theorem empty_project_list_cex :
    find_deltas cxNoBase [] "b" "t" none none = [] ∧
    generate_summary (find_deltas cxNoBase [] "b" "t" none none)
      = { base_ref := "", target_ref := "", total_projects := 0, projects_with_changes := 0,
          projects_without_changes := 0, projects_with_errors := 0, total_commits := 0,
          total_files_changed := 0, total_additions := 0, total_deletions := 0,
          unique_authors := [], total_base_commits := 0, total_target_commits := 0,
          top_projects := [] } :=
  ⟨rfl, rfl⟩

/-- C8 (amended): find_deltas on an empty project list returns an empty
result list (one result per project, vacuously) and generate_summary of it
is the zeroed summary; the empty-project configuration error is surfaced
before this layer (the CLI exits when project resolution yields nothing). -/
theorem empty_project_list_returns_empty (client : GitLabClient) (b t : String)
    (a bd : Option String) :
    find_deltas client [] b t a bd = [] ∧
    generate_summary (find_deltas client [] b t a bd)
      = { base_ref := "", target_ref := "", total_projects := 0, projects_with_changes := 0,
          projects_without_changes := 0, projects_with_errors := 0, total_commits := 0,
          total_files_changed := 0, total_additions := 0, total_deletions := 0,
          unique_authors := [], total_base_commits := 0, total_target_commits := 0,
          top_projects := [] } :=
  ⟨rfl, rfl⟩

lemma countP_partition (l : List DeltaResult)
    (h : ∀ r ∈ l, r.error ≠ none → r.commits = []) :
    l.countP (fun r => r.has_changes) + l.countP (fun r => r.error.isSome)
      + l.countP (fun r => !r.has_changes && r.error.isNone) = l.length := by
  induction l with
  | nil => rfl
  | cons r rest ih =>
    have hrest := ih (fun x hx => h x (List.mem_cons_of_mem r hx))
    simp only [List.countP_cons, List.length_cons]
    cases he : r.error with
    | some m =>
      have hc : r.commits = [] := h r (List.mem_cons_self r rest) (by simp [he])
      have hch : r.has_changes = false := by simp [DeltaResult.has_changes, hc]
      simp [hch, he]
      omega
    | none =>
      cases hch : r.has_changes with
      | true =>
        simp [hch, he]
        omega
      | false =>
        simp [hch, he]
        omega

/-- C9: every DeltaResult produced by the Delta Engine with a non-None
error has an empty commit list; consequently the three outcome classes of
generate_summary (has-commits, no-commits-no-error, has-error) are
mutually exclusive and their counts sum to the total project count. -/
theorem error_implies_empty_commits_and_partition :
    (∀ (client : GitLabClient) (p : ProjectInfo) (b t : String) (a bd : Option String),
      (compare_in_project client p b t a bd).error ≠ none →
      (compare_in_project client p b t a bd).commits = []) ∧
    (∀ results : List DeltaResult,
      (∀ r ∈ results, r.error ≠ none → r.commits = []) →
      (generate_summary results).projects_with_changes
          = ((results.countP (fun r => r.has_changes) : Nat) : Int) ∧
      (generate_summary results).projects_with_errors
          = ((results.countP (fun r => r.error.isSome) : Nat) : Int) ∧
      (generate_summary results).projects_without_changes
          = ((results.countP (fun r => !r.has_changes && r.error.isNone) : Nat) : Int) ∧
      (generate_summary results).projects_with_changes
          + (generate_summary results).projects_without_changes
          + (generate_summary results).projects_with_errors
          = (generate_summary results).total_projects) := by
  constructor
  · intro client p b t a bd
    unfold compare_in_project
    cases hb : ref_exists client p.id b with
    | error e => intro _; rfl
    | ok be =>
      cases be with
      | false => intro _; rfl
      | true =>
        cases ht : ref_exists client p.id t with
        | error e => intro _; rfl
        | ok te =>
          cases te with
          | false => intro _; rfl
          | true =>
            cases hlt : client.list_commits_from_ref p.id t with
            | error e => intro _; rfl
            | ok tc =>
              cases hlb : client.list_commits_from_ref p.id b with
              | error e => intro _; rfl
              | ok bc =>
                intro he
                exact absurd rfl he
  · intro results hinv
    cases results with
    | nil => exact ⟨rfl, rfl, rfl, rfl⟩
    | cons d rest =>
      have hpart := countP_partition (d :: rest) hinv
      refine ⟨rfl, rfl, ?_, ?_⟩
      · show ((d :: rest).length : Int)
            - (((d :: rest).countP (fun r => r.has_changes) : Nat) : Int)
            - (((d :: rest).countP (fun r => r.error.isSome) : Nat) : Int)
          = (((d :: rest).countP (fun r => !r.has_changes && r.error.isNone) : Nat) : Int)
        omega
      · show (((d :: rest).countP (fun r => r.has_changes) : Nat) : Int)
            + (((d :: rest).length : Int)
              - (((d :: rest).countP (fun r => r.has_changes) : Nat) : Int)
              - (((d :: rest).countP (fun r => r.error.isSome) : Nat) : Int))
            + (((d :: rest).countP (fun r => r.error.isSome) : Nat) : Int)
          = ((d :: rest).length : Int)
        omega

/-- Witness for C9 on results produced against `cxFaulty`, where project 2
fails with an API error and projects 1 and 3 succeed. -/
theorem error_implies_empty_commits_and_partition_witness :
    (compare_in_project cxFaulty proj2 "b" "t" none none).commits = [] ∧
    (generate_summary (find_deltas cxFaulty [proj1, proj2, proj3] "b" "t"
        none none)).projects_with_changes
      + (generate_summary (find_deltas cxFaulty [proj1, proj2, proj3] "b" "t"
          none none)).projects_without_changes
      + (generate_summary (find_deltas cxFaulty [proj1, proj2, proj3] "b" "t"
          none none)).projects_with_errors
      = (generate_summary (find_deltas cxFaulty [proj1, proj2, proj3] "b" "t"
          none none)).total_projects := by
  constructor
  · exact error_implies_empty_commits_and_partition.1 cxFaulty proj2 "b" "t" none none
      (by decide)
  · exact (error_implies_empty_commits_and_partition.2
      (find_deltas cxFaulty [proj1, proj2, proj3] "b" "t" none none) (by decide)).2.2.2

/-- C10: a delta commit whose committed_date is the empty string bypasses
both date filters and is always included in the final commit list, even
when afterDate and beforeDate bounds are set. -/
theorem empty_committed_date_bypasses_filters (client : GitLabClient) (p : ProjectInfo)
    (b t : String) (a bd : Option String) (tc bc : List CommitData) (c : CommitData)
    (hb : ref_exists client p.id b = .ok true)
    (ht : ref_exists client p.id t = .ok true)
    (hlt : client.list_commits_from_ref p.id t = .ok tc)
    (hlb : client.list_commits_from_ref p.id b = .ok bc)
    (hc : c ∈ dictEntries tc)
    (hnb : c.id ∉ (bc.map (fun x => x.id)).toFinset)
    (hdate : c.committed_date = "") :
    toDeltaCommit c ∈ (compare_in_project client p b t a bd).commits := by
  rw [commits_of_success client p b t a bd tc bc hb ht hlt hlb, mem_sortByDateDesc]
  apply List.mem_map.mpr
  refine ⟨c, ?_, rfl⟩
  apply List.mem_filter.mpr
  constructor
  · exact List.mem_filter.mpr ⟨hc, decide_eq_true hnb⟩
  · rw [hdate]
    simp [dateSkip]

/-- Witness for C10 on the concrete oracle `cxEmptyDate` with both bounds
set: the empty-dated commit still appears in the result. -/
theorem empty_committed_date_bypasses_filters_witness :
    toDeltaCommit emptyDateCommit ∈ (compare_in_project cxEmptyDate proj1 "b" "t"
      (some "2025-01-01T00:00:00Z") (some "2025-12-31T00:00:00Z")).commits :=
  empty_committed_date_bypasses_filters cxEmptyDate proj1 "b" "t"
    (some "2025-01-01T00:00:00Z") (some "2025-12-31T00:00:00Z") [emptyDateCommit] []
    emptyDateCommit rfl rfl rfl rfl (by decide) (by decide) rfl

end GitDoctor
